import Mathlib

/-!
Shallow embedding of the opossum-decorator circuit breaker library: the breaker
registry, option resolution, and the decorator invocation interceptor, together
with theorems about their behaviour.
-/

namespace OpossumDecorator

/-- Results of wrapped operations are modelled as strings. -/
abbrev Value := String

/-- Error payloads (rejected promise values) are modelled as strings. -/
abbrev Err := String

/-- A fallback function: receives the error and produces a substitute value. -/
abbrev Fb := Err → Value

/-- A property of a receiver object: either a callable method or a plain value,
mirroring the typeof function test in the decorator. -/
inductive PropVal where
  | func (f : Fb)
  | val (v : Value)

/-- The receiver (the this object) of a decorated method call, seen as a bag of
named properties. -/
structure Receiver where
  props : String → Option PropVal

/-- Circuit breaker options record (opossum CircuitBreaker.Options). An absent
object property is modelled as none. -/
structure CircuitOptions where
  timeout : Option Nat := none
  errorThresholdPercentage : Option Nat := none
  resetTimeout : Option Nat := none
  group : Option String := none
  name : Option String := none
  errorFilter : Option (Err → Bool) := none

/-- A circuit breaker instance: the bound operation, its construction options,
and the currently attached fallback. -/
structure Circuit where
  op : List Value → Except Err Value
  options : CircuitOptions
  fallback : Option Fb := none

/-- The per-call options field of UseCircuitBreakerOptions: either a literal
options record or a function computing one from the caller instance. -/
inductive OptionsSource where
  | literal (o : CircuitOptions)
  | computed (f : Receiver → CircuitOptions)

/-- A setup hook may attach a fallback to the circuit it receives (by calling
the fallback primitive) or leave it unchanged; it may also throw. -/
abbrev SetupEffect := Except Err (Option Fb)

/-- Translation of the UseCircuitBreakerOptions type (per-call decorator options). -/
structure UseOptions where
  options : Option OptionsSource := none
  fallbackMethod : Option String := none
  returnFallbackWhenErrorIsFiltered : Option Bool := none
  setup : Option (Receiver → Circuit → SetupEffect) := none

/-- Translation of the DefaultUseCircuitBreakerOptions type (process-wide defaults). -/
structure DefaultUseCircuitBreakerOptions where
  options : Option CircuitOptions := none
  setup : Option (Circuit → SetupEffect) := none
  returnFallbackWhenErrorIsFiltered : Option Bool := none

/-- Translation of src/lib/utils/get-circuit-options.ts: when the per-call
options field is a function it is applied with the receiver as context and its
result is copied; otherwise the literal record is copied; a missing record
yields the empty record (spread of undefined). -/
def getCircuitBreakerOptions (thisArg : Receiver) (maybeOptions : Option UseOptions) :
    CircuitOptions :=
  match maybeOptions with
  | none => {}
  | some mo =>
    match mo.options with
    | some (.computed f) => f thisArg
    | some (.literal o) => o
    | none => {}

/-- Field-level semantics of the object spread: a field present on the right
overrides the same field on the left. -/
def mergeField (d p : Option α) : Option α :=
  match p with
  | some v => some v
  | none => d

/-- Translation of the options merge in the decorator apply trap (spread of the
process default options followed by the resolved per-call options). -/
def mergeOptions (d p : CircuitOptions) : CircuitOptions where
  timeout := mergeField d.timeout p.timeout
  errorThresholdPercentage := mergeField d.errorThresholdPercentage p.errorThresholdPercentage
  resetTimeout := mergeField d.resetTimeout p.resetTimeout
  group := mergeField d.group p.group
  name := mergeField d.name p.name
  errorFilter := mergeField d.errorFilter p.errorFilter

/-- The registry mapping: insertion-ordered key to circuit-id pairs (a JS Map
whose values are references into the circuit heap). -/
abbrev RegistryMap := List (String × Nat)

/-- Translation of CircuitBreakerRegistry.get: a pure Map lookup that constructs
nothing and returns the stored handle itself. -/
def registryGet (r : RegistryMap) (k : String) : Option Nat :=
  (r.find? (fun e => e.1 == k)).map (fun e => e.2)

/-- The value passed as the circuit argument of register: possibly null or
undefined, a value that is not a CircuitBreaker instance, or a breaker handle. -/
inductive RegisterArg where
  | nullish
  | notABreaker
  | breakerRef (cid : Nat)

/-- The three configuration errors register can raise. -/
inductive RegError where
  | invalidName
  | invalidCircuit
  | duplicate
deriving DecidableEq, Repr

namespace CircuitBreakerRegistry

/-- Translation of CircuitBreakerRegistry.register: falsy-name check first, then
the instanceof check, then the duplicate check, then Map.set. A raising call
returns the registry mapping unchanged, mirroring a throw before the set. -/
def register (r : RegistryMap) (nm : Option String) (arg : RegisterArg) :
    Except RegError Unit × RegistryMap :=
  match nm with
  | none => (.error .invalidName, r)
  | some s =>
    if s = "" then (.error .invalidName, r)
    else
      match arg with
      | .breakerRef cid =>
        if (registryGet r s).isSome then (.error .duplicate, r)
        else (.ok (), r ++ [(s, cid)])
      | _ => (.error .invalidCircuit, r)

end CircuitBreakerRegistry

/-- Whether an error is matched by the errorFilter of a circuit; a circuit
without a filter matches nothing. -/
def isFiltered (c : Circuit) (e : Err) : Bool :=
  match c.options.errorFilter with
  | some p => p e
  | none => false

/-- Fire semantics of the external breaker engine, modelled from the engine
contract quoted in the repository documentation (the opossum handleError
function): a successful operation resolves; a rejection whose error is matched
by the errorFilter bypasses both failure accounting and the fallback and is
re-raised; an unfiltered rejection resolves through the fallback when one is
attached and is re-raised otherwise. -/
def engineFire (c : Circuit) (args : List Value) : Except Err Value :=
  match c.op args with
  | .ok v => .ok v
  | .error e =>
    if isFiltered c e then .error e
    else
      match c.fallback with
      | some fb => .ok (fb e)
      | none => .error e

/-- Modelled from the spec: the effective returnFallbackWhenErrorIsFiltered
flag of an invocation; the per-call value takes precedence over the
process-wide default, and an absent flag counts as false. The interception
consuming this flag is absent from the packaged decorator source; only its
option declarations, documentation and tests are present. -/
def effectiveReturnFallbackFlag (defaults : DefaultUseCircuitBreakerOptions)
    (maybeOptions : Option UseOptions) : Bool :=
  match maybeOptions.bind (fun mo => mo.returnFallbackWhenErrorIsFiltered) with
  | some b => b
  | none => defaults.returnFallbackWhenErrorIsFiltered.getD false

/-- Modelled from the spec: the interceptor wraps the engine fire of an
invocation; when the engine re-raises an error matched by the errorFilter and
the effective policy flag is true and a fallback is attached, the invocation
resolves with the fallback value; in every other case the engine outcome
passes through unchanged. -/
def fireWithFilteredFallback (flag : Bool) (c : Circuit) (args : List Value) :
    Except Err Value :=
  match engineFire c args with
  | .ok v => .ok v
  | .error e =>
    if flag && isFiltered c e then
      match c.fallback with
      | some fb => .ok (fb e)
      | none => .error e
    else .error e

/-- A heap of options records; an address is an index, allocation appends. -/
abbrev OptionsHeap := List CircuitOptions

/-- Allocate a fresh shallow copy of the record at the given address (the
object spread), returning the new heap and the address of the copy. -/
def copyOptionsRecord (h : OptionsHeap) (addr : Nat) : OptionsHeap × Nat :=
  (h ++ [h.getD addr {}], h.length)

/-- The per-call options field seen at the reference level: the address of a
literal record, a function computing a record address from the receiver, or an
absent field. -/
inductive OptionsSourceRef where
  | literalRef (addr : Nat)
  | computedRef (f : Receiver → Nat)
  | absent

/-- Reference-level translation of src/lib/utils/get-circuit-options.ts,
exposing the allocation behaviour of its object spreads: the resolved record is
always a freshly allocated copy of the source record, and no existing heap cell
is written. -/
def getCircuitBreakerOptionsRef (h : OptionsHeap) (thisArg : Receiver)
    (src : OptionsSourceRef) : OptionsHeap × Nat :=
  match src with
  | .computedRef f => copyOptionsRecord h (f thisArg)
  | .literalRef a => copyOptionsRecord h a
  | .absent => (h ++ [{}], h.length)

/-- Decidable snapshot of a nested default options record, restricted to the
fields the configuration claims observe. -/
structure StoredOptionsRecord where
  timeout : Option Nat := none
  errorThresholdPercentage : Option Nat := none
deriving DecidableEq, Repr

/-- A top-level default configuration object: its options field holds a
reference into the options heap, since object properties hold references and
the spread copies in the registry are shallow. -/
structure DefaultConfigData where
  optionsAddr : Option Nat := none
  returnFallbackWhenErrorIsFiltered : Option Bool := none
deriving DecidableEq, Repr

/-- Heap state for the registry default configuration: a heap of nested options
records, a heap of top-level configuration objects, and the address of the
stored default. -/
structure DefaultsState where
  optHeap : List StoredOptionsRecord
  cfgHeap : List DefaultConfigData
  stored : Nat
deriving DecidableEq, Repr

/-- Translation of CircuitBreakerRegistry.addDefaultOptions: store a fresh
shallow copy of the caller object; the nested options reference is copied, not
the record it points to. -/
def addDefaultOptions (s : DefaultsState) (srcAddr : Nat) : DefaultsState :=
  { s with cfgHeap := s.cfgHeap ++ [s.cfgHeap.getD srcAddr {}],
           stored := s.cfgHeap.length }

/-- Translation of CircuitBreakerRegistry.defaultOptions: return a fresh
shallow copy of the stored default configuration object. -/
def defaultOptionsRead (s : DefaultsState) : DefaultsState × Nat :=
  ({ s with cfgHeap := s.cfgHeap ++ [s.cfgHeap.getD s.stored {}] }, s.cfgHeap.length)

/-- A caller mutating a top-level configuration object in place. -/
def writeCfg (s : DefaultsState) (a : Nat) (d : DefaultConfigData) : DefaultsState :=
  { s with cfgHeap := s.cfgHeap.set a d }

/-- A caller mutating a nested options record in place. -/
def writeOpt (s : DefaultsState) (a : Nat) (o : StoredOptionsRecord) : DefaultsState :=
  { s with optHeap := s.optHeap.set a o }

/-- The stored default configuration as observed by a later read: the data a
subsequent defaultOptions call copies. -/
def observedStoredCfg (s : DefaultsState) : DefaultConfigData :=
  s.cfgHeap.getD s.stored {}

/-- The stored default timeout as observed by a later read, following the
nested options reference of the stored configuration. -/
def observedStoredTimeout (s : DefaultsState) : Option Nat :=
  match (observedStoredCfg s).optionsAddr with
  | some a => (s.optHeap.getD a {}).timeout
  | none => none

/-- JS nullish coalescing on optional values. -/
def jsNullish (a b : Option α) : Option α :=
  match a with
  | some v => some v
  | none => b

/-- JS truthiness of an optional string: present and non-empty. -/
def truthyStr (o : Option String) : Bool :=
  match o with
  | some s => !(s == "")
  | none => false

/-- The message of a registry configuration error, as thrown by register. -/
def regErrMsg : RegError → Err
  | .invalidName => "Invalid circuit name"
  | .invalidCircuit => "Invalid circuit"
  | .duplicate => "A circuit with this name is already registered"

/-- The mutable world of the interceptor: the registry mapping and the heap of
circuit instances, addressed by circuit id. -/
structure World where
  registry : RegistryMap
  circuits : List Circuit

/-- The circuit used as an out-of-bounds default when dereferencing the heap. -/
def defaultCircuit : Circuit :=
  { op := fun _ => .error "", options := {} }

/-- Dereference a circuit id in the world. -/
def getCircuit (w : World) (cid : Nat) : Circuit :=
  w.circuits.getD cid defaultCircuit

/-- Write the circuit stored at an id. -/
def setCircuit (w : World) (cid : Nat) (c : Circuit) : World :=
  { w with circuits := w.circuits.set cid c }

/-- Observable steps of one interceptor invocation, in execution order. -/
inductive Ev where
  | registerKey (key : String)
  | defaultSetupRun (cid : Nat)
  | perCallSetupRun (cid : Nat)
  | attachFallback (cid : Nat)
  | fireCircuit (cid : Nat)
deriving DecidableEq, Repr

/-- Apply the effect of a setup hook to the circuit it received: attach the
fallback the hook chose, or leave the circuit unchanged. -/
def applySetup (c : Circuit) (act : Option Fb) : Circuit :=
  match act with
  | some fb => { c with fallback := some fb }
  | none => c

/-- The fallbackMethod resolution of the decorator: a truthy method name whose
receiver property is callable, bound to the receiver. -/
def resolveFallbackMethod (maybeOptions : Option UseOptions) (recv : Receiver) :
    Option Fb :=
  match maybeOptions with
  | none => none
  | some mo =>
    match mo.fallbackMethod with
    | none => none
    | some m =>
      if m == "" then none
      else
        match recv.props m with
        | some (.func f) => some f
        | _ => none

/-- Final steps of a first invocation: attach the resolved fallbackMethod when
there is one, then fire the new circuit. -/
def fallbackAndFireStep (maybeOptions : Option UseOptions) (recv : Receiver)
    (args : List Value) (cid : Nat) (w : World) :
    Except Err Value × World × List Ev :=
  match resolveFallbackMethod maybeOptions recv with
  | some f =>
    let w2 := setCircuit w cid { getCircuit w cid with fallback := some f }
    (engineFire (getCircuit w2 cid) args, w2, [.attachFallback cid, .fireCircuit cid])
  | none => (engineFire (getCircuit w cid) args, w, [.fireCircuit cid])

/-- Run the per-call setup hook (when present) with the receiver as context,
then the remaining steps; a hook failure fails the invocation. -/
def perCallSetupStep (maybeOptions : Option UseOptions) (recv : Receiver)
    (args : List Value) (cid : Nat) (w : World) :
    Except Err Value × World × List Ev :=
  match maybeOptions.bind (fun mo => mo.setup) with
  | none => fallbackAndFireStep maybeOptions recv args cid w
  | some g =>
    match g recv (getCircuit w cid) with
    | .error e => (.error e, w, [.perCallSetupRun cid])
    | .ok act =>
      let next := fallbackAndFireStep maybeOptions recv args cid
        (setCircuit w cid (applySetup (getCircuit w cid) act))
      (next.1, next.2.1, .perCallSetupRun cid :: next.2.2)

/-- Run the process-wide default setup hook (when present), then the remaining
steps; a hook failure fails the invocation. -/
def defaultSetupStep (defaults : DefaultUseCircuitBreakerOptions)
    (maybeOptions : Option UseOptions) (recv : Receiver)
    (args : List Value) (cid : Nat) (w : World) :
    Except Err Value × World × List Ev :=
  match defaults.setup with
  | none => perCallSetupStep maybeOptions recv args cid w
  | some f =>
    match f (getCircuit w cid) with
    | .error e => (.error e, w, [.defaultSetupRun cid])
    | .ok act =>
      let next := perCallSetupStep maybeOptions recv args cid
        (setCircuit w cid (applySetup (getCircuit w cid) act))
      (next.1, next.2.1, .defaultSetupRun cid :: next.2.2)

/-- The merged options of an invocation: the process default options spread
first, the resolved per-call options spread second. -/
def resolvedMergedOptions (defaults : DefaultUseCircuitBreakerOptions)
    (maybeOptions : Option UseOptions) (recv : Receiver) : CircuitOptions :=
  mergeOptions (defaults.options.getD {}) (getCircuitBreakerOptions recv maybeOptions)

/-- The circuit group of an invocation: the merged group, else the owner type
name, else a fresh unique token. -/
def computedGroup (defaults : DefaultUseCircuitBreakerOptions)
    (maybeOptions : Option UseOptions) (recv : Receiver)
    (ctorName : Option String) (uuid : String) : String :=
  (jsNullish (resolvedMergedOptions defaults maybeOptions recv).group ctorName).getD uuid

/-- The circuit name of an invocation: the merged name, else the method name. -/
def computedName (defaults : DefaultUseCircuitBreakerOptions)
    (maybeOptions : Option UseOptions) (recv : Receiver) (propertyKey : String) : String :=
  (resolvedMergedOptions defaults maybeOptions recv).name.getD propertyKey

/-- The identity key of an invocation: group, colon, name. -/
def computedKey (defaults : DefaultUseCircuitBreakerOptions)
    (maybeOptions : Option UseOptions) (recv : Receiver)
    (ctorName : Option String) (uuid propertyKey : String) : String :=
  computedGroup defaults maybeOptions recv ctorName uuid ++ ":"
    ++ computedName defaults maybeOptions recv propertyKey

/-- The options a first invocation constructs its circuit with: the merged
options, with a falsy group or name replaced by the computed identity. -/
def createdOptions (defaults : DefaultUseCircuitBreakerOptions)
    (maybeOptions : Option UseOptions) (recv : Receiver)
    (ctorName : Option String) (uuid propertyKey : String) : CircuitOptions :=
  let o := resolvedMergedOptions defaults maybeOptions recv
  { o with
    group := if truthyStr o.group then o.group
             else some (computedGroup defaults maybeOptions recv ctorName uuid),
    name := if truthyStr o.name then o.name
            else some (computedName defaults maybeOptions recv propertyKey) }

/-- The circuit a first invocation constructs: the receiver-bound operation,
the created options, and no fallback yet. -/
def createdCircuit (defaults : DefaultUseCircuitBreakerOptions)
    (maybeOptions : Option UseOptions) (recv : Receiver)
    (ctorName : Option String) (uuid propertyKey : String)
    (op : List Value → Except Err Value) : Circuit :=
  { op := op,
    options := createdOptions defaults maybeOptions recv ctorName uuid propertyKey,
    fallback := none }

/-- Translation of the decorator Proxy apply trap: resolve the per-call
options, merge them over the defaults, compute the identity key, fire an
existing circuit directly, or construct, register, set up, wire the fallback
and fire a new one. -/
def applyTrap (defaults : DefaultUseCircuitBreakerOptions)
    (maybeOptions : Option UseOptions) (ctorName : Option String)
    (propertyKey uuid : String) (recv : Receiver)
    (op : List Value → Except Err Value) (args : List Value) (w : World) :
    Except Err Value × World × List Ev :=
  let key := computedKey defaults maybeOptions recv ctorName uuid propertyKey
  match registryGet w.registry key with
  | some cid => (engineFire (getCircuit w cid) args, w, [.fireCircuit cid])
  | none =>
    let cid := w.circuits.length
    let newCircuit := createdCircuit defaults maybeOptions recv ctorName uuid propertyKey op
    match CircuitBreakerRegistry.register w.registry (some key) (.breakerRef cid) with
    | (.error re, reg2) => (.error (regErrMsg re), { w with registry := reg2 }, [])
    | (.ok _, reg2) =>
      let w1 : World := { registry := reg2, circuits := w.circuits ++ [newCircuit] }
      let next := defaultSetupStep defaults maybeOptions recv args cid w1
      (next.1, next.2.1, .registerKey key :: next.2.2)

end OpossumDecorator

open OpossumDecorator

/-- C3: register raises InvalidName on a missing or empty key, InvalidCircuit on
a missing or non-conforming handle, Duplicate on an already registered key, and
succeeds storing the pair in every other case; moreover every raising call
returns the registry mapping unchanged, so a duplicate registration leaves the
first registration intact. -/
theorem register_validates_and_preserves_on_error
    (r : RegistryMap) (s : String) (cid : Nat) (arg : RegisterArg) :
    CircuitBreakerRegistry.register r none arg = (.error .invalidName, r)
    ∧ CircuitBreakerRegistry.register r (some "") arg = (.error .invalidName, r)
    ∧ CircuitBreakerRegistry.register r (some s) .nullish =
        (if s = "" then (.error .invalidName, r) else (.error .invalidCircuit, r))
    ∧ CircuitBreakerRegistry.register r (some s) .notABreaker =
        (if s = "" then (.error .invalidName, r) else (.error .invalidCircuit, r))
    ∧ CircuitBreakerRegistry.register r (some s) (.breakerRef cid) =
        (if s = "" then (.error .invalidName, r)
         else if (registryGet r s).isSome then (.error .duplicate, r)
         else (.ok (), r ++ [(s, cid)])) := by
  refine ⟨rfl, by simp [CircuitBreakerRegistry.register], ?_, ?_, ?_⟩
  · simp only [CircuitBreakerRegistry.register]
  · simp only [CircuitBreakerRegistry.register]
  · simp only [CircuitBreakerRegistry.register]

/-- C10: after a successful registration of a fresh non-empty key, get returns
exactly the registered handle, and get on a key that was never registered still
returns none; get itself is a pure read and modifies nothing. -/
theorem register_get_roundtrip
    (r : RegistryMap) (k : String) (cid : Nat)
    (hk : k ≠ "") (hfresh : registryGet r k = none) :
    CircuitBreakerRegistry.register r (some k) (.breakerRef cid) = (.ok (), r ++ [(k, cid)])
    ∧ registryGet (r ++ [(k, cid)]) k = some cid
    ∧ ∀ k2, k2 ≠ k → registryGet r k2 = none → registryGet (r ++ [(k, cid)]) k2 = none := by
  have hnone : (r.find? (fun e => e.1 == k)) = none := by
    have h := hfresh
    simp only [registryGet, Option.map_eq_none'] at h
    exact h
  refine ⟨?_, ?_, ?_⟩
  · simp [CircuitBreakerRegistry.register, hk, hfresh]
  · simp [registryGet, List.find?_append, hnone]
  · intro k2 hne h2
    have h2n : (r.find? (fun e => e.1 == k2)) = none := by
      simpa [registryGet, Option.map_eq_none'] using h2
    simp [registryGet, List.find?_append, h2n, Ne.symm hne]

/-- Witness for C10 at a concrete registry and key. -/
theorem register_get_roundtrip_witness :
    CircuitBreakerRegistry.register [] (some "G:call") (.breakerRef 0)
      = (.ok (), [("G:call", 0)])
    ∧ registryGet [("G:call", 0)] "G:call" = some 0 := by
  have h := register_get_roundtrip [] "G:call" 0 (by decide) rfl
  exact ⟨h.1, h.2.1⟩

/-- C5: when the per-call options field is a function, option resolution invokes
it with the caller instance as its receiver context and uses its return value;
when it is a literal record, the literal fields are used directly. -/
theorem getCircuitBreakerOptions_function_vs_literal
    (recv : Receiver) (f : Receiver → CircuitOptions) (o : CircuitOptions) (mo : UseOptions) :
    getCircuitBreakerOptions recv (some { mo with options := some (.computed f) }) = f recv
    ∧ getCircuitBreakerOptions recv (some { mo with options := some (.literal o) }) = o :=
  ⟨rfl, rfl⟩

/-- C1: for an invocation whose breaker has an errorFilter matching the thrown
error and a fallback attached, the invocation resolves with the fallback value
when the effective returnFallbackWhenErrorIsFiltered flag is true and rejects
with the original error when it is false; the effective flag is the per-call
value when present and otherwise the process-wide default, absent meaning
false. -/
theorem filteredError_fallback_policy
    (defaults : DefaultUseCircuitBreakerOptions) (maybeOptions : Option UseOptions)
    (c : Circuit) (args : List Value) (e : Err) (p : Err → Bool) (fb : Fb)
    (hop : c.op args = .error e)
    (hfilter : c.options.errorFilter = some p)
    (hmatch : p e = true)
    (hfb : c.fallback = some fb) :
    fireWithFilteredFallback (effectiveReturnFallbackFlag defaults maybeOptions) c args
      = (if effectiveReturnFallbackFlag defaults maybeOptions then .ok (fb e) else .error e)
    ∧ (∀ b, maybeOptions.bind (fun mo => mo.returnFallbackWhenErrorIsFiltered) = some b →
        effectiveReturnFallbackFlag defaults maybeOptions = b)
    ∧ (maybeOptions.bind (fun mo => mo.returnFallbackWhenErrorIsFiltered) = none →
        effectiveReturnFallbackFlag defaults maybeOptions
          = defaults.returnFallbackWhenErrorIsFiltered.getD false) := by
  have hf : isFiltered c e = true := by simp [isFiltered, hfilter, hmatch]
  have hef : engineFire c args = .error e := by simp [engineFire, hop, hf]
  refine ⟨?_, ?_, ?_⟩
  · cases hflag : effectiveReturnFallbackFlag defaults maybeOptions <;>
      simp [fireWithFilteredFallback, hef, hf, hfb]
  · intro b hb; simp [effectiveReturnFallbackFlag, hb]
  · intro hb; simp [effectiveReturnFallbackFlag, hb]

/-- Witness for C1: a concrete failing operation whose error is filtered, with a
fallback attached and a per-call flag true overriding a default of false. -/
theorem filteredError_fallback_policy_witness :
    fireWithFilteredFallback
      (effectiveReturnFallbackFlag
        { returnFallbackWhenErrorIsFiltered := some false }
        (some { returnFallbackWhenErrorIsFiltered := some true }))
      { op := fun _ => .error "Not Found",
        options := { errorFilter := some (fun e => e == "Not Found") },
        fallback := some (fun _ => "fallback-value") }
      [] = .ok "fallback-value" := by
  have h := filteredError_fallback_policy
    { returnFallbackWhenErrorIsFiltered := some false }
    (some { returnFallbackWhenErrorIsFiltered := some true })
    { op := fun _ => .error "Not Found",
      options := { errorFilter := some (fun e => e == "Not Found") },
      fallback := some (fun _ => "fallback-value") }
    [] "Not Found" (fun e => e == "Not Found") (fun _ => "fallback-value")
    rfl rfl (by decide) rfl
  simpa [effectiveReturnFallbackFlag] using h.1

/-- C6: option resolution never writes an existing heap cell, so the
caller-supplied records are unchanged at every existing address; the returned
record is a fresh allocation distinct from every existing address, in
particular from a supplied literal record and from the record returned by a
function-valued options field; and the fresh record carries the same field
contents as its source. -/
theorem getCircuitBreakerOptionsRef_fresh_and_pure
    (h : OptionsHeap) (recv : Receiver) (src : OptionsSourceRef) :
    (∀ i, i < h.length →
      (getCircuitBreakerOptionsRef h recv src).1.getD i {} = h.getD i {})
    ∧ (getCircuitBreakerOptionsRef h recv src).2 = h.length
    ∧ (∀ a, a < h.length → (getCircuitBreakerOptionsRef h recv src).2 ≠ a)
    ∧ (∀ a, src = .literalRef a →
        (getCircuitBreakerOptionsRef h recv src).1.getD
          (getCircuitBreakerOptionsRef h recv src).2 {} = h.getD a {})
    ∧ (∀ f, src = .computedRef f →
        (getCircuitBreakerOptionsRef h recv src).1.getD
          (getCircuitBreakerOptionsRef h recv src).2 {} = h.getD (f recv) {}) := by
  refine ⟨?_, ?_, ?_, ?_, ?_⟩
  · intro i hi
    cases src <;>
      simp only [getCircuitBreakerOptionsRef, copyOptionsRecord] <;>
      exact List.getD_append _ _ _ _ hi
  · cases src <;> rfl
  · intro a ha
    cases src <;> simp [getCircuitBreakerOptionsRef, copyOptionsRecord] <;> omega
  · intro a hsrc
    subst hsrc
    simp [getCircuitBreakerOptionsRef, copyOptionsRecord, List.getD_append_right]
  · intro f hsrc
    subst hsrc
    simp [getCircuitBreakerOptionsRef, copyOptionsRecord, List.getD_append_right]

/-- Witness for C6: a one-record heap with a literal source; the copy lands at
the fresh address 1, leaves address 0 unchanged, and carries the same timeout. -/
theorem getCircuitBreakerOptionsRef_fresh_and_pure_witness :
    (getCircuitBreakerOptionsRef [{ timeout := some 7 }] ⟨fun _ => none⟩
        (.literalRef 0)).2 = 1
    ∧ (getCircuitBreakerOptionsRef [{ timeout := some 7 }] ⟨fun _ => none⟩
        (.literalRef 0)).1.getD 0 {} = { timeout := some 7 }
    ∧ (getCircuitBreakerOptionsRef [{ timeout := some 7 }] ⟨fun _ => none⟩
        (.literalRef 0)).1.getD 1 {} = { timeout := some 7 } := by
  have h := getCircuitBreakerOptionsRef_fresh_and_pure
    [{ timeout := some 7 }] ⟨fun _ => none⟩ (.literalRef 0)
  refine ⟨h.2.1, ?_, ?_⟩
  · simpa using h.1 0 (by decide)
  · have := h.2.2.2.1 0 rfl
    simpa [h.2.1] using this

/-- Counterexample to C9: the copy returned by defaultOptions is shallow, so a
mutation of the nested options record reachable from the returned copy changes
the stored default configuration as observed by a later read: with a stored
nested timeout of 1000, writing 99 through the nested record shared with the
returned copy is observed as 99 by the next read. -/
theorem defaultOptions_shallow_copy_counterexample :
    (((defaultOptionsRead
        { optHeap := [{ timeout := some 1000 }],
          cfgHeap := [{ optionsAddr := some 0 }], stored := 0 }).1.cfgHeap.getD
        (defaultOptionsRead
        { optHeap := [{ timeout := some 1000 }],
          cfgHeap := [{ optionsAddr := some 0 }], stored := 0 }).2 {}).optionsAddr = some 0)
    ∧ observedStoredTimeout
        { optHeap := [{ timeout := some 1000 }],
          cfgHeap := [{ optionsAddr := some 0 }], stored := 0 } = some 1000
    ∧ observedStoredTimeout
        (writeOpt (defaultOptionsRead
          { optHeap := [{ timeout := some 1000 }],
            cfgHeap := [{ optionsAddr := some 0 }], stored := 0 }).1
          0 { timeout := some 99 }) = some 99 := by
  decide

/-- C9 as amended: defaultOptions returns a configuration object distinct from
the stored one, and no mutation of the returned top-level object changes the
stored configuration as observed by later reads; the nested options record,
however, is shared by reference between the returned copy and the stored
configuration, so mutations through it are observed. -/
theorem defaultOptions_top_level_defensive_copy
    (s : DefaultsState) (hs : s.stored < s.cfgHeap.length) :
    (defaultOptionsRead s).2 ≠ s.stored
    ∧ (defaultOptionsRead s).1.stored = s.stored
    ∧ (∀ d, observedStoredCfg
        (writeCfg (defaultOptionsRead s).1 (defaultOptionsRead s).2 d)
        = observedStoredCfg s)
    ∧ (defaultOptionsRead s).1.cfgHeap.getD (defaultOptionsRead s).2 {}
        = observedStoredCfg s := by
  refine ⟨by simp [defaultOptionsRead]; omega, rfl, ?_, ?_⟩
  · intro d
    have hne : (defaultOptionsRead s).2 ≠ s.stored := by
      simp [defaultOptionsRead]; omega
    simp only [observedStoredCfg, writeCfg, defaultOptionsRead,
      List.getD_eq_getElem?_getD]
    rw [List.getElem?_set_ne (by simpa [defaultOptionsRead] using hne)]
    rw [List.getElem?_append_left hs]
  · simp [defaultOptionsRead, observedStoredCfg, List.getD_append_right]

/-- Witness for C9 as amended: a concrete state whose stored configuration
survives a top-level mutation of the returned copy. -/
theorem defaultOptions_top_level_defensive_copy_witness :
    (defaultOptionsRead
      { optHeap := [], cfgHeap := [{ optionsAddr := none }], stored := 0 }).2 ≠ 0
    ∧ observedStoredCfg
        (writeCfg (defaultOptionsRead
          { optHeap := [], cfgHeap := [{ optionsAddr := none }], stored := 0 }).1
          (defaultOptionsRead
          { optHeap := [], cfgHeap := [{ optionsAddr := none }], stored := 0 }).2
          { optionsAddr := some 5 })
        = observedStoredCfg
          { optHeap := [], cfgHeap := [{ optionsAddr := none }], stored := 0 } := by
  have h := defaultOptions_top_level_defensive_copy
    { optHeap := [], cfgHeap := [{ optionsAddr := none }], stored := 0 } (by decide)
  exact ⟨h.1, h.2.2.1 { optionsAddr := some 5 }⟩

/-- An identity key always contains a colon, so it is never the empty string. -/
theorem append_colon_ne_empty (g n : String) : g ++ ":" ++ n ≠ "" := by
  intro h
  have h2 := congrArg String.length h
  simp [String.length_append] at h2
  exact absurd h2.1.2 (by decide)

/-- A key absent from the registry maps to the appended handle afterwards. -/
theorem registryGet_append_fresh (r : RegistryMap) (k : String) (cid : Nat)
    (h : registryGet r k = none) : registryGet (r ++ [(k, cid)]) k = some cid := by
  have hn : r.find? (fun e => e.1 == k) = none := by
    simpa [registryGet, Option.map_eq_none'] using h
  simp [registryGet, List.find?_append, hn]

/-- Reading the cell just written by setCircuit yields the written circuit. -/
theorem getCircuit_setCircuit_self (w : World) (cid : Nat) (c : Circuit)
    (h : cid < w.circuits.length) : getCircuit (setCircuit w cid c) cid = c := by
  simp [getCircuit, setCircuit, List.getD_eq_getElem?_getD, List.getElem?_set_self h]

/-- Reading the freshly appended cell of a heap yields the appended element. -/
theorem getD_append_len (l : List α) (c d : α) : (l ++ [c]).getD l.length d = c := by
  simp [List.getD_append_right]

/-- A setup hook effect never changes the options of the circuit. -/
theorem applySetup_options (c : Circuit) (act : Option Fb) :
    (applySetup c act).options = c.options := by
  cases act <;> rfl

/-- The final fallback-and-fire step leaves the registry untouched. -/
theorem fallbackAndFireStep_registry (maybeOptions : Option UseOptions) (recv : Receiver)
    (args : List Value) (cid : Nat) (w : World) :
    (fallbackAndFireStep maybeOptions recv args cid w).2.1.registry = w.registry := by
  unfold fallbackAndFireStep
  cases resolveFallbackMethod maybeOptions recv <;> rfl

/-- The per-call setup step leaves the registry untouched. -/
theorem perCallSetupStep_registry (maybeOptions : Option UseOptions) (recv : Receiver)
    (args : List Value) (cid : Nat) (w : World) :
    (perCallSetupStep maybeOptions recv args cid w).2.1.registry = w.registry := by
  unfold perCallSetupStep
  cases hb : maybeOptions.bind (fun mo => mo.setup) with
  | none => exact fallbackAndFireStep_registry maybeOptions recv args cid w
  | some g =>
    cases hg : g recv (getCircuit w cid) with
    | error e => simp only []; rw [hg]
    | ok act =>
      simp only []
      rw [hg]
      exact fallbackAndFireStep_registry maybeOptions recv args cid
        (setCircuit w cid (applySetup (getCircuit w cid) act))

/-- The default setup step leaves the registry untouched. -/
theorem defaultSetupStep_registry (defaults : DefaultUseCircuitBreakerOptions)
    (maybeOptions : Option UseOptions) (recv : Receiver)
    (args : List Value) (cid : Nat) (w : World) :
    (defaultSetupStep defaults maybeOptions recv args cid w).2.1.registry = w.registry := by
  unfold defaultSetupStep
  cases hb : defaults.setup with
  | none => exact perCallSetupStep_registry maybeOptions recv args cid w
  | some f =>
    cases hf : f (getCircuit w cid) with
    | error e => simp only []; rw [hf]
    | ok act =>
      simp only []
      rw [hf]
      exact perCallSetupStep_registry maybeOptions recv args cid
        (setCircuit w cid (applySetup (getCircuit w cid) act))

/-- The final fallback-and-fire step never changes the options stored at the
new circuit id. -/
theorem fallbackAndFireStep_optionsAt (maybeOptions : Option UseOptions) (recv : Receiver)
    (args : List Value) (cid : Nat) (w : World) (h : cid < w.circuits.length) :
    (getCircuit (fallbackAndFireStep maybeOptions recv args cid w).2.1 cid).options
      = (getCircuit w cid).options := by
  unfold fallbackAndFireStep
  cases resolveFallbackMethod maybeOptions recv with
  | none => rfl
  | some f =>
    simp only []
    rw [getCircuit_setCircuit_self _ _ _ h]

/-- The per-call setup step never changes the options stored at the new
circuit id. -/
theorem perCallSetupStep_optionsAt (maybeOptions : Option UseOptions) (recv : Receiver)
    (args : List Value) (cid : Nat) (w : World) (h : cid < w.circuits.length) :
    (getCircuit (perCallSetupStep maybeOptions recv args cid w).2.1 cid).options
      = (getCircuit w cid).options := by
  unfold perCallSetupStep
  cases hb : maybeOptions.bind (fun mo => mo.setup) with
  | none => exact fallbackAndFireStep_optionsAt maybeOptions recv args cid w h
  | some g =>
    cases hg : g recv (getCircuit w cid) with
    | error e => simp only []; rw [hg]
    | ok act =>
      have hlen : cid < (setCircuit w cid (applySetup (getCircuit w cid) act)).circuits.length := by
        simpa [setCircuit] using h
      simp only []
      rw [hg]
      show (getCircuit (fallbackAndFireStep maybeOptions recv args cid
          (setCircuit w cid (applySetup (getCircuit w cid) act))).2.1 cid).options
        = (getCircuit w cid).options
      rw [fallbackAndFireStep_optionsAt maybeOptions recv args cid _ hlen,
        getCircuit_setCircuit_self _ _ _ h, applySetup_options]

/-- The default setup step never changes the options stored at the new circuit
id. -/
theorem defaultSetupStep_optionsAt (defaults : DefaultUseCircuitBreakerOptions)
    (maybeOptions : Option UseOptions) (recv : Receiver)
    (args : List Value) (cid : Nat) (w : World) (h : cid < w.circuits.length) :
    (getCircuit (defaultSetupStep defaults maybeOptions recv args cid w).2.1 cid).options
      = (getCircuit w cid).options := by
  unfold defaultSetupStep
  cases hb : defaults.setup with
  | none => exact perCallSetupStep_optionsAt maybeOptions recv args cid w h
  | some f =>
    cases hf : f (getCircuit w cid) with
    | error e => simp only []; rw [hf]
    | ok act =>
      have hlen : cid < (setCircuit w cid (applySetup (getCircuit w cid) act)).circuits.length := by
        simpa [setCircuit] using h
      simp only []
      rw [hf]
      show (getCircuit (perCallSetupStep maybeOptions recv args cid
          (setCircuit w cid (applySetup (getCircuit w cid) act))).2.1 cid).options
        = (getCircuit w cid).options
      rw [perCallSetupStep_optionsAt maybeOptions recv args cid _ hlen,
        getCircuit_setCircuit_self _ _ _ h, applySetup_options]

/-- Characterization of the apply trap on a cold identity: the new circuit is
constructed from the created options, registered under the computed key, and
the setup steps run in the extended world, with the registration event first. -/
theorem applyTrap_cold
    (defaults : DefaultUseCircuitBreakerOptions) (maybeOptions : Option UseOptions)
    (ctorName : Option String) (propertyKey uuid : String) (recv : Receiver)
    (op : List Value → Except Err Value) (args : List Value) (w : World)
    (hcold : registryGet w.registry
      (computedKey defaults maybeOptions recv ctorName uuid propertyKey) = none) :
    applyTrap defaults maybeOptions ctorName propertyKey uuid recv op args w
      = (let key := computedKey defaults maybeOptions recv ctorName uuid propertyKey
         let cid := w.circuits.length
         let w1 : World :=
           { registry := w.registry ++ [(key, cid)],
             circuits := w.circuits
               ++ [createdCircuit defaults maybeOptions recv ctorName uuid propertyKey op] }
         let next := defaultSetupStep defaults maybeOptions recv args cid w1
         (next.1, next.2.1, .registerKey key :: next.2.2)) := by
  have hne : computedKey defaults maybeOptions recv ctorName uuid propertyKey ≠ "" :=
    append_colon_ne_empty _ _
  have hreg : CircuitBreakerRegistry.register w.registry
      (some (computedKey defaults maybeOptions recv ctorName uuid propertyKey))
      (.breakerRef w.circuits.length)
      = (.ok (), w.registry
          ++ [(computedKey defaults maybeOptions recv ctorName uuid propertyKey,
               w.circuits.length)]) := by
    simp [CircuitBreakerRegistry.register, hne, hcold]
  simp only [applyTrap, hcold, hreg]

/-- The default setup step when no default hook is configured. -/
theorem defaultSetupStep_none (defaults : DefaultUseCircuitBreakerOptions)
    (maybeOptions : Option UseOptions) (recv : Receiver)
    (args : List Value) (cid : Nat) (w : World) (h : defaults.setup = none) :
    defaultSetupStep defaults maybeOptions recv args cid w
      = perCallSetupStep maybeOptions recv args cid w := by
  simp only [defaultSetupStep, h]

/-- The default setup step when the default hook throws. -/
theorem defaultSetupStep_some_err (defaults : DefaultUseCircuitBreakerOptions)
    (maybeOptions : Option UseOptions) (recv : Receiver)
    (args : List Value) (cid : Nat) (w : World) (fd : Circuit → SetupEffect) (e : Err)
    (hds : defaults.setup = some fd) (hfd : fd (getCircuit w cid) = .error e) :
    defaultSetupStep defaults maybeOptions recv args cid w
      = (.error e, w, [.defaultSetupRun cid]) := by
  simp only [defaultSetupStep, hds]
  rw [hfd]

/-- The default setup step when the default hook returns. -/
theorem defaultSetupStep_some_ok (defaults : DefaultUseCircuitBreakerOptions)
    (maybeOptions : Option UseOptions) (recv : Receiver)
    (args : List Value) (cid : Nat) (w : World) (fd : Circuit → SetupEffect)
    (act : Option Fb)
    (hds : defaults.setup = some fd) (hfd : fd (getCircuit w cid) = .ok act) :
    defaultSetupStep defaults maybeOptions recv args cid w
      = (let next := perCallSetupStep maybeOptions recv args cid
           (setCircuit w cid (applySetup (getCircuit w cid) act))
         (next.1, next.2.1, .defaultSetupRun cid :: next.2.2)) := by
  simp only [defaultSetupStep, hds]
  rw [hfd]

/-- The per-call setup step when no per-call hook is configured. -/
theorem perCallSetupStep_none (maybeOptions : Option UseOptions) (recv : Receiver)
    (args : List Value) (cid : Nat) (w : World)
    (h : maybeOptions.bind (fun mo => mo.setup) = none) :
    perCallSetupStep maybeOptions recv args cid w
      = fallbackAndFireStep maybeOptions recv args cid w := by
  simp only [perCallSetupStep, h]

/-- The per-call setup step when the per-call hook throws. -/
theorem perCallSetupStep_some_err (maybeOptions : Option UseOptions) (recv : Receiver)
    (args : List Value) (cid : Nat) (w : World)
    (g : Receiver → Circuit → SetupEffect) (e : Err)
    (hb : maybeOptions.bind (fun mo => mo.setup) = some g)
    (hg : g recv (getCircuit w cid) = .error e) :
    perCallSetupStep maybeOptions recv args cid w
      = (.error e, w, [.perCallSetupRun cid]) := by
  simp only [perCallSetupStep, hb]
  rw [hg]

/-- The per-call setup step when the per-call hook returns. -/
theorem perCallSetupStep_some_ok (maybeOptions : Option UseOptions) (recv : Receiver)
    (args : List Value) (cid : Nat) (w : World)
    (g : Receiver → Circuit → SetupEffect) (act : Option Fb)
    (hb : maybeOptions.bind (fun mo => mo.setup) = some g)
    (hg : g recv (getCircuit w cid) = .ok act) :
    perCallSetupStep maybeOptions recv args cid w
      = (let next := fallbackAndFireStep maybeOptions recv args cid
           (setCircuit w cid (applySetup (getCircuit w cid) act))
         (next.1, next.2.1, .perCallSetupRun cid :: next.2.2)) := by
  simp only [perCallSetupStep, hb]
  rw [hg]

/-- The final step when a fallbackMethod resolves to a callable. -/
theorem fallbackAndFireStep_some (maybeOptions : Option UseOptions) (recv : Receiver)
    (args : List Value) (cid : Nat) (w : World) (f : Fb)
    (hr : resolveFallbackMethod maybeOptions recv = some f) :
    fallbackAndFireStep maybeOptions recv args cid w
      = (let w2 := setCircuit w cid { getCircuit w cid with fallback := some f }
         (engineFire (getCircuit w2 cid) args, w2, [.attachFallback cid, .fireCircuit cid])) := by
  simp only [fallbackAndFireStep, hr]

/-- The final step when no fallbackMethod resolves. -/
theorem fallbackAndFireStep_noneResolved (maybeOptions : Option UseOptions) (recv : Receiver)
    (args : List Value) (cid : Nat) (w : World)
    (hr : resolveFallbackMethod maybeOptions recv = none) :
    fallbackAndFireStep maybeOptions recv args cid w
      = (engineFire (getCircuit w cid) args, w, [.fireCircuit cid]) := by
  simp only [fallbackAndFireStep, hr]

/-- C2: an invocation whose computed identity key is already present in the
registry forwards the call arguments directly to the fire of the existing
circuit and returns its outcome, leaves the whole world unchanged (so the
existing breaker configuration and fallback stay frozen and a later invocation
computing the same identity resolves the same handle), and performs no
registration, no setup-hook run, no option re-application and no fallback
attachment. -/
theorem warm_invocation_forwards_to_existing
    (defaults : DefaultUseCircuitBreakerOptions) (maybeOptions : Option UseOptions)
    (ctorName : Option String) (propertyKey uuid : String) (recv : Receiver)
    (op : List Value → Except Err Value) (args : List Value) (w : World) (cid : Nat)
    (hwarm : registryGet w.registry
      (computedKey defaults maybeOptions recv ctorName uuid propertyKey) = some cid) :
    applyTrap defaults maybeOptions ctorName propertyKey uuid recv op args w
      = (engineFire (getCircuit w cid) args, w, [.fireCircuit cid]) := by
  simp only [applyTrap, hwarm]

/-- Witness for C2: a registry already holding the identity; the call resolves
through the registered circuit and the world is untouched. -/
theorem warm_invocation_forwards_to_existing_witness :
    applyTrap {} none (some "G") "m" "u" ⟨fun _ => none⟩ (fun _ => .error "down") []
      { registry := [("G:m", 0)],
        circuits := [{ op := fun _ => .ok "live", options := {} }] }
      = (.ok "live",
         { registry := [("G:m", 0)],
           circuits := [{ op := fun _ => .ok "live", options := {} }] },
         [.fireCircuit 0]) := by
  rw [warm_invocation_forwards_to_existing {} none (some "G") "m" "u" ⟨fun _ => none⟩
    (fun _ => .error "down") []
    { registry := [("G:m", 0)],
      circuits := [{ op := fun _ => .ok "live", options := {} }] } 0 (by rfl)]
  rfl

/-- C4: a first invocation on a cold identity constructs its circuit with the
field-by-field merge of the process default options and the resolved per-call
options (identity fields patched from the computed identity); a field present
in the per-call options always overrides the same default field, an absent
per-call field inherits the default, and in particular a default timeout of
1000 merged with a per-call timeout of 500 yields 500. -/
theorem cold_invocation_uses_merged_options
    (defaults : DefaultUseCircuitBreakerOptions) (maybeOptions : Option UseOptions)
    (ctorName : Option String) (propertyKey uuid : String) (recv : Receiver)
    (op : List Value → Except Err Value) (args : List Value) (w : World)
    (hcold : registryGet w.registry
      (computedKey defaults maybeOptions recv ctorName uuid propertyKey) = none) :
    (getCircuit
        (applyTrap defaults maybeOptions ctorName propertyKey uuid recv op args w).2.1
        w.circuits.length).options
      = createdOptions defaults maybeOptions recv ctorName uuid propertyKey
    ∧ (createdOptions defaults maybeOptions recv ctorName uuid propertyKey).timeout
      = (resolvedMergedOptions defaults maybeOptions recv).timeout
    ∧ (resolvedMergedOptions defaults maybeOptions recv).timeout
      = mergeField (defaults.options.getD {}).timeout
          (getCircuitBreakerOptions recv maybeOptions).timeout
    ∧ (∀ (d p : CircuitOptions) (v : Nat), p.timeout = some v →
        (mergeOptions d p).timeout = some v)
    ∧ (∀ d p : CircuitOptions, p.timeout = none →
        (mergeOptions d p).timeout = d.timeout)
    ∧ (mergeOptions { timeout := some 1000 } { timeout := some 500 }).timeout = some 500 := by
  refine ⟨?_, rfl, rfl, ?_, ?_, rfl⟩
  · rw [applyTrap_cold defaults maybeOptions ctorName propertyKey uuid recv op args w hcold]
    simp only []
    have hlen : w.circuits.length <
        (w.circuits
          ++ [createdCircuit defaults maybeOptions recv ctorName uuid propertyKey op]).length := by
      simp
    rw [defaultSetupStep_optionsAt defaults maybeOptions recv args w.circuits.length
      { registry := w.registry
          ++ [(computedKey defaults maybeOptions recv ctorName uuid propertyKey,
               w.circuits.length)],
        circuits := w.circuits
          ++ [createdCircuit defaults maybeOptions recv ctorName uuid propertyKey op] }
      hlen]
    show ((w.circuits
        ++ [createdCircuit defaults maybeOptions recv ctorName uuid propertyKey op]).getD
        w.circuits.length defaultCircuit).options = _
    rw [getD_append_len]
    rfl
  · intro d p v hp
    simp [mergeOptions, mergeField, hp]
  · intro d p hp
    simp [mergeOptions, mergeField, hp]

/-- Witness for C4: default timeout 1000, per-call literal timeout 500; the
circuit created by the cold invocation carries timeout 500. -/
theorem cold_invocation_uses_merged_options_witness :
    (getCircuit
        (applyTrap { options := some { timeout := some 1000 } }
          (some { options := some (.literal { timeout := some 500 }) })
          (some "Svc") "call" "u" ⟨fun _ => none⟩ (fun _ => .ok "v") []
          { registry := [], circuits := [] }).2.1
        0).options.timeout = some 500 := by
  have h := cold_invocation_uses_merged_options
    { options := some { timeout := some 1000 } }
    (some { options := some (.literal { timeout := some 500 }) })
    (some "Svc") "call" "u" ⟨fun _ => none⟩ (fun _ => .ok "v") []
    { registry := [], circuits := [] } (by rfl)
  have h1 := h.1
  simp only [List.length_nil] at h1
  rw [h1]
  rfl

/-- C7: on a first invocation for a cold identity the circuit is registered
before any setup hook runs (the registration event leads the trace), the
default hook runs before the per-call hook and both are awaited in order, and
a throwing hook fails the invocation with that error while the circuit stays
registered under its key. -/
theorem cold_invocation_registers_before_hooks
    (defaults : DefaultUseCircuitBreakerOptions) (maybeOptions : Option UseOptions)
    (ctorName : Option String) (propertyKey uuid : String) (recv : Receiver)
    (op : List Value → Except Err Value) (args : List Value) (w : World)
    (key : String) (cid : Nat)
    (hkey : key = computedKey defaults maybeOptions recv ctorName uuid propertyKey)
    (hcid : cid = w.circuits.length)
    (hcold : registryGet w.registry key = none) :
    (applyTrap defaults maybeOptions ctorName propertyKey uuid recv op args w).2.2.head?
        = some (.registerKey key)
    ∧ registryGet
        (applyTrap defaults maybeOptions ctorName propertyKey uuid recv op args w).2.1.registry
        key = some cid
    ∧ (∀ fd e, defaults.setup = some fd →
        fd (createdCircuit defaults maybeOptions recv ctorName uuid propertyKey op)
          = .error e →
        (applyTrap defaults maybeOptions ctorName propertyKey uuid recv op args w).1
          = .error e
        ∧ (applyTrap defaults maybeOptions ctorName propertyKey uuid recv op args w).2.2
          = [.registerKey key, .defaultSetupRun cid])
    ∧ (∀ fd act g e, defaults.setup = some fd →
        fd (createdCircuit defaults maybeOptions recv ctorName uuid propertyKey op)
          = .ok act →
        maybeOptions.bind (fun mo => mo.setup) = some g →
        g recv (applySetup
          (createdCircuit defaults maybeOptions recv ctorName uuid propertyKey op) act)
          = .error e →
        (applyTrap defaults maybeOptions ctorName propertyKey uuid recv op args w).1
          = .error e
        ∧ (applyTrap defaults maybeOptions ctorName propertyKey uuid recv op args w).2.2
          = [.registerKey key, .defaultSetupRun cid, .perCallSetupRun cid]) := by
  subst hkey hcid
  rw [applyTrap_cold defaults maybeOptions ctorName propertyKey uuid recv op args w hcold]
  simp only []
  set C := createdCircuit defaults maybeOptions recv ctorName uuid propertyKey op with hC
  set K := computedKey defaults maybeOptions recv ctorName uuid propertyKey with hK
  set W1 : World :=
    { registry := w.registry ++ [(K, w.circuits.length)],
      circuits := w.circuits ++ [C] } with hW1
  have hget : getCircuit W1 w.circuits.length = C := by
    rw [hW1]
    exact getD_append_len _ _ _
  refine ⟨rfl, ?_, ?_, ?_⟩
  · rw [defaultSetupStep_registry]
    rw [hW1]
    exact registryGet_append_fresh _ _ _ hcold
  · intro fd e hds hfd
    have hfd2 : fd (getCircuit W1 w.circuits.length) = .error e := by
      rw [hget]; exact hfd
    rw [defaultSetupStep_some_err defaults maybeOptions recv args _ _ fd e hds hfd2]
    exact ⟨rfl, rfl⟩
  · intro fd act g e hds hfd hb hg
    have hfd2 : fd (getCircuit W1 w.circuits.length) = .ok act := by
      rw [hget]; exact hfd
    rw [defaultSetupStep_some_ok defaults maybeOptions recv args _ _ fd act hds hfd2]
    simp only []
    have hlen1 : w.circuits.length < W1.circuits.length := by
      rw [hW1]; simp
    have hget2 : getCircuit
        (setCircuit W1 w.circuits.length
          (applySetup (getCircuit W1 w.circuits.length) act)) w.circuits.length
        = applySetup C act := by
      rw [getCircuit_setCircuit_self _ _ _ hlen1, hget]
    have hg2 : g recv (getCircuit
        (setCircuit W1 w.circuits.length
          (applySetup (getCircuit W1 w.circuits.length) act)) w.circuits.length)
        = .error e := by
      rw [hget2]; exact hg
    rw [perCallSetupStep_some_err maybeOptions recv args _ _ g e hb hg2]
    exact ⟨rfl, rfl⟩

/-- Witness for C7: a default setup hook that throws; the invocation fails with
the hook error, the trace shows registration before the hook run, and the
circuit is still registered afterwards. -/
theorem cold_invocation_registers_before_hooks_witness :
    (applyTrap { setup := some (fun _ => .error "hook-fail") } none (some "G") "m" "u"
        ⟨fun _ => none⟩ (fun _ => .ok "v") [] { registry := [], circuits := [] }).1
      = .error "hook-fail"
    ∧ (applyTrap { setup := some (fun _ => .error "hook-fail") } none (some "G") "m" "u"
        ⟨fun _ => none⟩ (fun _ => .ok "v") [] { registry := [], circuits := [] }).2.2
      = [.registerKey "G:m", .defaultSetupRun 0]
    ∧ registryGet
        (applyTrap { setup := some (fun _ => .error "hook-fail") } none (some "G") "m" "u"
          ⟨fun _ => none⟩ (fun _ => .ok "v") []
          { registry := [], circuits := [] }).2.1.registry "G:m" = some 0 := by
  have h := cold_invocation_registers_before_hooks
    { setup := some (fun _ => .error "hook-fail") } none (some "G") "m" "u"
    ⟨fun _ => none⟩ (fun _ => .ok "v") [] { registry := [], circuits := [] }
    "G:m" 0 (by rfl) rfl (by rfl)
  have h3 := h.2.2.1 (fun _ => .error "hook-fail") "hook-fail" rfl rfl
  exact ⟨h3.1, h3.2, h.2.1⟩

/-- Counterexample to C8: a supplied fallbackMethod name that is the empty
string, with the receiver owning a callable property of exactly that name, is
skipped by the truthiness test of the decorator: the invocation rejects with
the original error, no fallback-attachment step appears in the trace, and the
created circuit ends with no fallback, although the claim requires the method
to be attached and the rejection to resolve through it. -/
theorem fallbackMethod_empty_name_counterexample :
    (applyTrap {} (some { fallbackMethod := some "" }) (some "G") "m" "u"
        ⟨fun s => if s == "" then some (.func (fun _ => "fb")) else none⟩
        (fun _ => .error "boom") [] { registry := [], circuits := [] }).1
      = .error "boom"
    ∧ (applyTrap {} (some { fallbackMethod := some "" }) (some "G") "m" "u"
        ⟨fun s => if s == "" then some (.func (fun _ => "fb")) else none⟩
        (fun _ => .error "boom") [] { registry := [], circuits := [] }).2.2
      = [.registerKey "G:m", .fireCircuit 0]
    ∧ (getCircuit
        (applyTrap {} (some { fallbackMethod := some "" }) (some "G") "m" "u"
          ⟨fun s => if s == "" then some (.func (fun _ => "fb")) else none⟩
          (fun _ => .error "boom") [] { registry := [], circuits := [] }).2.1
        0).fallback = none := by
  refine ⟨rfl, by decide, rfl⟩

/-- C8 as amended: on a first invocation for a cold identity where a non-empty
fallbackMethod name was supplied and the receiver has a callable property of
that name, that method is attached as the breaker fallback after both setup
hooks have run, overriding any fallback a hook attached (last writer wins, the
attachment event follows both hook events); a name whose property is absent or
not callable attaches nothing in this step. -/
theorem fallbackMethod_attached_after_hooks
    (defaults : DefaultUseCircuitBreakerOptions) (mo : UseOptions)
    (ctorName : Option String) (propertyKey uuid : String) (recv : Receiver)
    (op : List Value → Except Err Value) (args : List Value) (w : World)
    (key : String) (cid : Nat) (m : String) (f : Fb)
    (fd : Circuit → SetupEffect) (actd : Option Fb)
    (g : Receiver → Circuit → SetupEffect) (hookFb : Fb)
    (hkey : key = computedKey defaults (some mo) recv ctorName uuid propertyKey)
    (hcid : cid = w.circuits.length)
    (hcold : registryGet w.registry key = none)
    (hds : defaults.setup = some fd)
    (hfd : fd (createdCircuit defaults (some mo) recv ctorName uuid propertyKey op)
      = .ok actd)
    (hpc : mo.setup = some g)
    (hg : g recv (applySetup
        (createdCircuit defaults (some mo) recv ctorName uuid propertyKey op) actd)
      = .ok (some hookFb))
    (hm : mo.fallbackMethod = some m)
    (hmne : m ≠ "")
    (hprop : recv.props m = some (.func f)) :
    (getCircuit
        (applyTrap defaults (some mo) ctorName propertyKey uuid recv op args w).2.1
        cid).fallback = some f
    ∧ (applyTrap defaults (some mo) ctorName propertyKey uuid recv op args w).2.2
      = [.registerKey key, .defaultSetupRun cid, .perCallSetupRun cid,
         .attachFallback cid, .fireCircuit cid]
    ∧ (∀ m2, recv.props m2 = none →
        resolveFallbackMethod (some { mo with fallbackMethod := some m2 }) recv = none)
    ∧ (∀ m2 v, recv.props m2 = some (.val v) →
        resolveFallbackMethod (some { mo with fallbackMethod := some m2 }) recv = none) := by
  subst hkey hcid
  have hres : resolveFallbackMethod (some mo) recv = some f := by
    simp [resolveFallbackMethod, hm, hprop, hmne]
  rw [applyTrap_cold defaults (some mo) ctorName propertyKey uuid recv op args w hcold]
  simp only []
  set C := createdCircuit defaults (some mo) recv ctorName uuid propertyKey op with hC
  set K := computedKey defaults (some mo) recv ctorName uuid propertyKey with hK
  set W1 : World :=
    { registry := w.registry ++ [(K, w.circuits.length)],
      circuits := w.circuits ++ [C] } with hW1
  have hget : getCircuit W1 w.circuits.length = C := by
    rw [hW1]
    exact getD_append_len _ _ _
  have hfd2 : fd (getCircuit W1 w.circuits.length) = .ok actd := by
    rw [hget]; exact hfd
  rw [defaultSetupStep_some_ok defaults (some mo) recv args _ _ fd actd hds hfd2]
  simp only []
  set W2 : World := setCircuit W1 w.circuits.length
    (applySetup (getCircuit W1 w.circuits.length) actd) with hW2
  have hlen1 : w.circuits.length < W1.circuits.length := by
    rw [hW1]; simp
  have hget2 : getCircuit W2 w.circuits.length = applySetup C actd := by
    rw [hW2, getCircuit_setCircuit_self _ _ _ hlen1, hget]
  have hb : (some mo).bind (fun x => x.setup) = some g := hpc
  have hg2 : g recv (getCircuit W2 w.circuits.length) = .ok (some hookFb) := by
    rw [hget2]; exact hg
  rw [perCallSetupStep_some_ok (some mo) recv args _ _ g (some hookFb) hb hg2]
  simp only []
  set W3 : World := setCircuit W2 w.circuits.length
    (applySetup (getCircuit W2 w.circuits.length) (some hookFb)) with hW3
  have hlen2 : w.circuits.length < W2.circuits.length := by
    rw [hW2]
    simp [setCircuit]
  rw [fallbackAndFireStep_some (some mo) recv args _ _ f hres]
  simp only []
  have hlen3 : w.circuits.length < W3.circuits.length := by
    rw [hW3]
    simpa [setCircuit] using hlen2
  have hget4 : getCircuit
      (setCircuit W3 w.circuits.length
        { getCircuit W3 w.circuits.length with fallback := some f }) w.circuits.length
      = { getCircuit W3 w.circuits.length with fallback := some f} :=
    getCircuit_setCircuit_self _ _ _ hlen3
  refine ⟨?_, trivial, ?_, ?_⟩
  · rw [hget4]
  · intro m2 h2
    simp [resolveFallbackMethod, h2]
  · intro m2 v h2
    simp [resolveFallbackMethod, h2]

/-- Witness for C8 as amended: a hook attaches one fallback, the fallbackMethod
names another; the created circuit ends with the named method as fallback and
the attachment event follows both hook runs. -/
theorem fallbackMethod_attached_after_hooks_witness :
    (getCircuit
        (applyTrap { setup := some (fun _ => .ok none) }
          (some { fallbackMethod := some "fb",
                  setup := some (fun _ _ => .ok (some (fun _ => "hook"))) })
          (some "S") "m" "u"
          ⟨fun s => if s == "fb" then some (.func (fun _ => "method")) else none⟩
          (fun _ => .error "down") [] { registry := [], circuits := [] }).2.1
        0).fallback = some (fun _ => "method")
    ∧ (applyTrap { setup := some (fun _ => .ok none) }
          (some { fallbackMethod := some "fb",
                  setup := some (fun _ _ => .ok (some (fun _ => "hook"))) })
          (some "S") "m" "u"
          ⟨fun s => if s == "fb" then some (.func (fun _ => "method")) else none⟩
          (fun _ => .error "down") [] { registry := [], circuits := [] }).2.2
      = [.registerKey "S:m", .defaultSetupRun 0, .perCallSetupRun 0,
         .attachFallback 0, .fireCircuit 0] := by
  have h := fallbackMethod_attached_after_hooks
    { setup := some (fun _ => .ok none) }
    { fallbackMethod := some "fb",
      setup := some (fun _ _ => .ok (some (fun _ => "hook"))) }
    (some "S") "m" "u"
    ⟨fun s => if s == "fb" then some (.func (fun _ => "method")) else none⟩
    (fun _ => .error "down") [] { registry := [], circuits := [] }
    "S:m" 0 "fb" (fun _ => "method") (fun _ => .ok none) none
    (fun _ _ => .ok (some (fun _ => "hook"))) (fun _ => "hook")
    (by rfl) rfl (by rfl) rfl rfl rfl rfl rfl (by decide) (by rfl)
  exact ⟨h.1, h.2.1⟩
